import Mathlib

/-!
# Verification of the `audio-multisample` note-capture engine

A shallow embedding of `src/lib.rs` of the `masonium/audio-multisample`
repository, together with theorems settling the specification claims.

Modelling conventions:

* Rust `f32` values are embedded as exact nonnegative rationals
  represented by unreduced fractions of naturals (`Posq`); every `f32`
  operation rounds its exact rational result to 24 significand bits with
  IEEE-754 round-to-nearest, ties-to-even (`roundF32`).  All `f32`
  values occurring in this program are nonnegative normal numbers far
  from overflow and underflow, so the normal-range model is exact.
* `std::time::Duration` is embedded as a seconds/nanoseconds pair.
* The concurrent audio device and the MIDI connection are embedded as an
  environment (`CaptureEnv`) giving, per note window, the samples the
  device delivers to the data callback, the stream errors it delivers to
  the error callback, and the results of the fallible stream-build /
  `play` / `pause` / MIDI-send operations.  The controller loop consumes
  this environment in exactly the order the Rust code performs the
  corresponding operations.  Sample values are opaque to the capture
  logic, so the capture model is parametric in the sample type.
* Rust panics (integer remainder by zero, `Arc::try_unwrap(..).expect`)
  are a distinct outcome constructor, separate from `Result::Err`.
-/

set_option maxRecDepth 10000

namespace AudioMultisample

/-! ## IEEE-754 binary32 model (nonnegative normal range, round to nearest even) -/

/-- An exact nonnegative rational `num / den`, kept as an unreduced
fraction of naturals so that every arithmetic step is plain `ℕ`
arithmetic.  `den` is nonzero in every value this development builds. -/
structure Posq where
  num : ℕ
  den : ℕ
  deriving DecidableEq

/-- Exact fraction addition (no rounding, no reduction). -/
def Posq.add (a b : Posq) : Posq := ⟨a.num * b.den + b.num * a.den, a.den * b.den⟩

/-- Exact fraction multiplication (no rounding, no reduction). -/
def Posq.mul (a b : Posq) : Posq := ⟨a.num * b.num, a.den * b.den⟩

/-- Exact fraction division (no rounding, no reduction). -/
def Posq.div (a b : Posq) : Posq := ⟨a.num * b.den, a.den * b.num⟩

/-- Truncation toward zero, i.e. the floor of a nonnegative fraction;
this is Rust's `as usize` on a nonnegative in-range `f32`. -/
def Posq.floor (a : Posq) : ℕ := a.num / a.den

/-- Round the fraction `a / b` to the nearest natural, ties to even. -/
def rneFrac (a b : ℕ) : ℕ :=
  if 2 * (a % b) < b then a / b
  else if b < 2 * (a % b) then a / b + 1
  else if (a / b) % 2 = 0 then a / b else a / b + 1

/-- Floor of the base-2 logarithm, with explicit fuel so that the kernel
evaluates it by structural recursion. -/
def log2fuel : ℕ → ℕ → ℕ
  | 0, _ => 0
  | f + 1, n => if n ≤ 1 then 0 else log2fuel f (n / 2) + 1

/-- Round a nonnegative exact rational to the nearest IEEE-754 binary32
value (24-bit significand, round to nearest, ties to even).

`E` is the binary exponent shifted by `150`: for `q ≥ 2 ^ (-150)` we have
`2 ^ (E - 150) ≤ q < 2 ^ (E - 149)`, so the significand is obtained by
rounding `q / 2 ^ (E - 150 - 23)`, i.e. `q * 2 ^ (173 - E)`, to an
integer.  Every `f32` value in this development lies far inside the
nonnegative normal range, where this model agrees with IEEE-754. -/
def roundF32 (q : Posq) : Posq :=
  if q.num = 0 then ⟨0, 1⟩
  else
    let E := log2fuel 400 (q.num * 2 ^ 150 / q.den)
    if E ≤ 173 then ⟨rneFrac (q.num * 2 ^ (173 - E)) q.den, 2 ^ (173 - E)⟩
    else ⟨rneFrac q.num (q.den * 2 ^ (E - 173)) * 2 ^ (E - 173), 1⟩

/-- `f32` addition: exact sum, rounded. -/
def f32add (a b : Posq) : Posq := roundF32 (a.add b)

/-- `f32` multiplication: exact product, rounded. -/
def f32mul (a b : Posq) : Posq := roundF32 (a.mul b)

/-- `f32` division: exact quotient, rounded. -/
def f32div (a b : Posq) : Posq := roundF32 (a.div b)

/-- Rust's `n as f32` for unsigned integers. -/
def f32ofNat (n : ℕ) : Posq := roundF32 ⟨n, 1⟩

/-- The `f32` value denoted by a decimal literal with exact value
`num / den`. -/
def f32lit (num den : ℕ) : Posq := roundF32 ⟨num, den⟩

/-! ## `std::time::Duration` -/

/-- `std::time::Duration`: seconds plus sub-second nanoseconds. -/
structure Duration where
  secs : ℕ
  nanos : ℕ
  deriving DecidableEq

/-- `Duration::from_secs_f32`: the argument (given here by its exact
rational value) times `10 ^ 9`, rounded to the nearest nanosecond with
ties to even, then split into seconds and sub-second nanoseconds. -/
def Duration.from_secs_f32 (x : Posq) : Duration :=
  ⟨rneFrac (x.num * 1000000000) x.den / 1000000000,
   rneFrac (x.num * 1000000000) x.den % 1000000000⟩

/-- `Duration::as_secs_f32`:
`self.secs as f32 + (self.subsec_nanos() as f32) / (NANOS_PER_SEC as f32)`. -/
def Duration.as_secs_f32 (d : Duration) : Posq :=
  f32add (f32ofNat d.secs) (f32div (f32ofNat d.nanos) (f32ofNat 1000000000))

/-- The exact rational number of seconds a `Duration` denotes (no
rounding); used only to state the spec's idealised `num_samples` formula. -/
def Duration.exactSecs (d : Duration) : Posq := ⟨d.secs * 1000000000 + d.nanos, 1000000000⟩

/-! ## `NoteCaptureSettings` -/

/-- The `NoteCaptureSettings` struct.  The `u8` fields are embedded as
`ℕ`; where a `u8` bound matters it appears as an explicit hypothesis. -/
structure NoteCaptureSettings where
  time_on : Duration
  time_release : Duration
  time_between : Duration
  channels : ℕ
  sample_rate : ℕ
  midi_channel : ℕ
  note_on_velocity : ℕ
  note_off_velocity : ℕ
  first_note : ℕ
  last_note : ℕ
  note_spacing : ℕ
  deriving DecidableEq

/-- `impl Default for NoteCaptureSettings`.  The duration literals go
through `Duration::from_secs_f32` exactly as in the source. -/
def NoteCaptureSettings.default : NoteCaptureSettings :=
  { time_on := Duration.from_secs_f32 (f32lit 2 100)
    time_release := Duration.from_secs_f32 (f32lit 2 100)
    time_between := Duration.from_secs_f32 (f32lit 1 1)
    channels := 1
    sample_rate := 44100
    midi_channel := 1
    note_on_velocity := 64
    note_off_velocity := 64
    first_note := 21
    last_note := 108
    note_spacing := 1 }

/-- `NoteCaptureSettings::num_samples`:
`((self.sample_rate * num_channels as usize) as f32 * total_length_secs) as usize`
where `total_length_secs = time_on.as_secs_f32() + time_release.as_secs_f32() + 0.01`
(both additions in `f32`), and `as usize` truncates toward zero. -/
def num_samples (s : NoteCaptureSettings) : ℕ :=
  (f32mul (f32ofNat (s.sample_rate * s.channels))
    (f32add (f32add s.time_on.as_secs_f32 s.time_release.as_secs_f32) (f32lit 1 100))).floor

/-- Modelled from the spec: the idealised sizing formula
`round(sample_rate * channel_count * total_seconds)` computed with exact
real (rational) arithmetic, for comparison with the source's
`num_samples`. -/
def num_samples_spec (s : NoteCaptureSettings) : ℕ :=
  let total := (s.time_on.exactSecs.add s.time_release.exactSecs).add ⟨1, 100⟩
  let q := (Posq.mul ⟨s.sample_rate * s.channels, 1⟩ total)
  rneFrac q.num q.den

/-- `NoteCaptureSettings::verify`: `channels` must lie in `{1, 2}`;
no other field is checked. -/
def verify (s : NoteCaptureSettings) : Bool :=
  if s.channels < 1 || s.channels > 2 then false else true

/-! ## `NoteCapturer`, `apply_config`, stream configuration -/

/-- `NoteCapturer`: a device handle (opaque, externally owned) plus the
active settings. -/
structure NoteCapturer where
  device : ℕ
  settings : NoteCaptureSettings
  deriving DecidableEq

/-- `NoteCapturer::new`: standard settings. -/
def NoteCapturer.new (input_device : ℕ) : NoteCapturer :=
  ⟨input_device, NoteCaptureSettings.default⟩

/-- `NoteCapturer::apply_config`.  The Rust method mutates `self` and
returns `()`; the embedding returns the updated capturer paired with the
(unit) return value of the method. -/
def apply_config (self : NoteCapturer) (config : NoteCaptureSettings) : NoteCapturer × Unit :=
  (if verify config then { self with settings := config } else self, ())

/-- `cpal::BufferSize`. -/
inductive BufferSize where
  | Default : BufferSize
  | Fixed : ℕ → BufferSize
  deriving DecidableEq

/-- `cpal::StreamConfig`. -/
structure StreamConfig where
  channels : ℕ
  sample_rate : ℕ
  buffer_size : BufferSize
  deriving DecidableEq

/-- The input stream configuration built in `capture_note_list`. -/
def in_config (s : NoteCaptureSettings) : StreamConfig :=
  { channels := s.channels, sample_rate := s.sample_rate, buffer_size := .Default }

/-- `NoteCapturer::midi_note_off_message`. -/
def midi_note_off_message (channel note velocity : ℕ) : List ℕ :=
  [0x80 ||| (channel &&& 0xF), note, velocity]

/-- `NoteCapturer::midi_note_on_message`. -/
def midi_note_on_message (channel note velocity : ℕ) : List ℕ :=
  [0x90 ||| (channel &&& 0xF), note, velocity]

/-! ## Note sequence derivation (`capture_notes`, lines 126-141) -/

/-- `rangeFrom n a = [a, a+1, …, a+n-1]`: the `n` values produced by
iterating a Rust range starting at `a`. -/
def rangeFrom : ℕ → ℕ → List ℕ
  | 0, _ => []
  | n + 1, a => a :: rangeFrom n (a + 1)

/-- Rust's `first..=last` for unsigned integers: empty when
`last < first`, else `[first, …, last]`. -/
def rangeIncl (first last : ℕ) : List ℕ := rangeFrom (last + 1 - first) first

/-- Rust's `.enumerate()`, with the running index made explicit. -/
def enumerateFrom (i : ℕ) : List ℕ → List (ℕ × ℕ)
  | [] => []
  | x :: xs => (i, x) :: enumerateFrom (i + 1) xs

/-- Rust `%` on `u8`: `none` models the `attempt to calculate the
remainder with a divisor of zero` panic. -/
def u8mod (a b : ℕ) : Option ℕ := if b = 0 then none else some (a % b)

/-- The `filter_map` of `capture_notes`: keep the notes whose 0-based
enumeration index, cast to `u8` (`i as u8`, i.e. `i % 256`), has
remainder 0 modulo `note_spacing`.  A zero `note_spacing` panics at the
first element (`none`). -/
def filterNotes (spacing : ℕ) : List (ℕ × ℕ) → Option (List ℕ)
  | [] => some []
  | (i, n) :: rest =>
    match u8mod (i % 256) spacing with
    | none => none
    | some r =>
      match filterNotes spacing rest with
      | none => none
      | some l => if r = 0 then some (n :: l) else some l

/-- The note list built by `capture_notes` before the capture loop:
stride-filter `first_note..=last_note`, then append `last_note` when the
list is non-empty and does not already end in it.  (`notes[notes.len()-1]`
under the `notes.len() > 0` guard is the last element, `getLast?`.) -/
def deriveNotes (s : NoteCaptureSettings) : Option (List ℕ) :=
  match filterNotes s.note_spacing (enumerateFrom 0 (rangeIncl s.first_note s.last_note)) with
  | none => none
  | some notes =>
    match notes.getLast? with
    | none => some notes
    | some x => if x = s.last_note then some notes else some (notes ++ [s.last_note])

/-- Spec-side description of the stride filter: the elements of
`first..=last` at 0-indexed positions `0, spacing, 2*spacing, …`. -/
def strideNotes (first last spacing : ℕ) : List ℕ :=
  (List.range (last + 1 - first)).filterMap
    (fun k => if k % spacing = 0 then some (first + k) else none)

/-- Spec-side description of the full derived sequence: the stride
filter, with `last` appended when the filter's last element is not
already `last`. -/
def strideWithTerminal (first last spacing : ℕ) : List ℕ :=
  if (strideNotes first last spacing).getLast? = some last
  then strideNotes first last spacing
  else strideNotes first last spacing ++ [last]

/-! ## The capture loop (`capture_note_list`, lines 147-230) -/

/-- The five variants of `CaptureError`; the payloads of the underlying
`cpal` / `midir` errors are opaque identifiers. -/
inductive CaptureError where
  | BuildStream : ℕ → CaptureError
  | PauseStream : ℕ → CaptureError
  | PlayStream : ℕ → CaptureError
  | Stream : ℕ → CaptureError
  | MidiSend : ℕ → CaptureError
  deriving DecidableEq

/-- The Rust panic sites reachable in the embedded code. -/
inductive PanicKind where
  /-- `%` with a divisor of zero in the stride filter of `capture_notes`. -/
  | divByZero : PanicKind
  /-- `Arc::try_unwrap(error).expect("should be no lock")` in
  `capture_note_list`: at the error-slot check the `stream` value is
  still alive and owns the error callback, which holds the second clone
  of the `Arc`, so `try_unwrap` returns `Err` and `expect` panics. -/
  | arcUnwrap : PanicKind
  deriving DecidableEq

/-- The result of running embedded Rust code: normal return, `Err`, or
panic. -/
inductive Outcome (α : Type) where
  | ok : α → Outcome α
  | err : CaptureError → Outcome α
  | panicked : PanicKind → Outcome α
  deriving DecidableEq

/-- The behaviour of the external audio device and MIDI connection
during one capture run, indexed by the 0-based note-window number:
results of the fallible operations (`none` = success, `some e` =
failure with error id `e`), the samples delivered to the data callback
while window `i` is playing, and the stream errors delivered to the
error callback during window `i`. -/
structure CaptureEnv (α : Type) where
  buildResult : Option ℕ
  sendOnRes : ℕ → Option ℕ
  playRes : ℕ → Option ℕ
  sendOffRes : ℕ → Option ℕ
  pauseRes : ℕ → Option ℕ
  delivered : ℕ → List α
  errs : ℕ → List ℕ

/-- The error callback: `*e2.lock().unwrap() = Some(e);` — the previous
slot contents are overwritten unconditionally. -/
def error_callback (_old : Option ℕ) (e : ℕ) : Option ℕ := some e

/-- The body of the data callback for one delivered batch:
append each sample to the shared buffer while the cumulative counter
`total_num_samples` is below `max_size`, then `break` (stop silently). -/
def pushSamples {α : Type} (max_size : ℕ) : List α → List α × ℕ → List α × ℕ
  | [], st => st
  | s :: rest, (buf, tot) =>
    if max_size ≤ tot then (buf, tot)
    else pushSamples max_size rest (buf ++ [s], tot + 1)

/-- The per-note loop of `capture_note_list`.  For each note, in source
order: clear the shared buffer (the `[]` fed to `pushSamples`), send
note-on, `play`, sleep, send note-off, sleep, `pause` — with each
fallible step aborting with its error — during which the device thread
appends the window's delivered samples (bounded by the cumulative
counter `tot`) and the error callback folds the window's stream errors
into the shared slot; then check the error slot (a set slot panics at
`Arc::try_unwrap`, see `PanicKind.arcUnwrap`); then swap the buffer out
and append it to the accumulator.  The note value itself only flows into
the MIDI messages, whose send results the environment provides. -/
def captureLoop {α : Type} (max_size : ℕ) (env : CaptureEnv α) :
    List ℕ → ℕ → ℕ → Option ℕ → List (List α) → Outcome (List (List α))
  | [], _, _, _, acc => .ok acc
  | _note :: rest, i, tot, slot, acc =>
    match env.sendOnRes i with
    | some e => .err (.MidiSend e)
    | none =>
    match env.playRes i with
    | some e => .err (.PlayStream e)
    | none =>
    match env.sendOffRes i with
    | some e => .err (.MidiSend e)
    | none =>
    match env.pauseRes i with
    | some e => .err (.PauseStream e)
    | none =>
    match (env.errs i).foldl error_callback slot with
    | some _ => .panicked .arcUnwrap
    | none =>
      captureLoop max_size env rest (i + 1)
        (pushSamples max_size (env.delivered i) ([], tot)).2 none
        (acc ++ [(pushSamples max_size (env.delivered i) ([], tot)).1])

/-- `NoteCapturer::capture_note_list`: build the input stream (failing
fast on a build error), then run the per-note loop with the shared
buffer empty, the cumulative sample counter `total_num_samples = 0` and
the error slot `None`. -/
def capture_note_list {α : Type} (s : NoteCaptureSettings) (env : CaptureEnv α)
    (notes : List ℕ) : Outcome (List (List α)) :=
  match env.buildResult with
  | some e => .err (.BuildStream e)
  | none => captureLoop (num_samples s) env notes 0 0 none []

/-- `NoteCapturer::capture_notes`: derive the note list (panicking on a
zero `note_spacing` over a non-empty range), then capture it. -/
def capture_notes {α : Type} (s : NoteCaptureSettings) (env : CaptureEnv α) :
    Outcome (List (List α)) :=
  match deriveNotes s with
  | none => .panicked .divByZero
  | some notes => capture_note_list s env notes

/-! ## Derived per-window quantities (for stating the loop theorems) -/

/-- The value of the cumulative counter `total_num_samples` after `i`
completed note windows. -/
def totalAfter {α : Type} (m : ℕ) (env : CaptureEnv α) : ℕ → ℕ
  | 0 => 0
  | i + 1 => (pushSamples m (env.delivered i) ([], totalAfter m env i)).2

/-- The buffer contents swapped out at the end of note window `i` in a
successful run: the window's delivered samples, truncated by the cap on
the cumulative counter. -/
def windowBuf {α : Type} (m : ℕ) (env : CaptureEnv α) (i : ℕ) : List α :=
  (pushSamples m (env.delivered i) ([], totalAfter m env i)).1

/-! ## Concrete instances used by counterexamples and witnesses -/

/-- Default settings except: zero on/release durations and sample rate
100, giving the small cap `num_samples = 1`. -/
def tinyS : NoteCaptureSettings :=
  { NoteCaptureSettings.default with time_on := ⟨0, 0⟩, time_release := ⟨0, 0⟩, sample_rate := 100 }

/-- Default settings with `note_spacing = 12` (the spec's scenario). -/
def s12 : NoteCaptureSettings :=
  { NoteCaptureSettings.default with note_spacing := 12 }

/-- Default settings with an empty note range (`first_note > last_note`). -/
def sEmptyRange : NoteCaptureSettings :=
  { NoteCaptureSettings.default with first_note := 100, last_note := 20 }

/-- Default settings with `note_spacing = 0`. -/
def sSpacing0 : NoteCaptureSettings :=
  { NoteCaptureSettings.default with note_spacing := 0 }

/-- A device on which every operation succeeds, which delivers the two
samples `5, 7` during every note window, and which reports no stream
errors. -/
def envW : CaptureEnv ℕ :=
  { buildResult := none, sendOnRes := fun _ => none, playRes := fun _ => none,
    sendOffRes := fun _ => none, pauseRes := fun _ => none,
    delivered := fun _ => [5, 7], errs := fun _ => [] }

/-- A device on which every operation succeeds but which reports the
stream error `5` during note window 2. -/
def envErr2 : CaptureEnv ℕ :=
  { buildResult := none, sendOnRes := fun _ => none, playRes := fun _ => none,
    sendOffRes := fun _ => none, pauseRes := fun _ => none,
    delivered := fun _ => [], errs := fun i => if i = 2 then [5] else [] }

/-- A device on which building the input stream fails with error `3`. -/
def envBuildFail : CaptureEnv ℕ :=
  { buildResult := some 3, sendOnRes := fun _ => none, playRes := fun _ => none,
    sendOffRes := fun _ => none, pauseRes := fun _ => none,
    delivered := fun _ => [], errs := fun _ => [] }

/-! ## Lemmas about the data callback and the capture loop -/

theorem pushSamples_snd_add {α : Type} (m : ℕ) :
    ∀ (ds buf : List α) (tot : ℕ),
      (pushSamples m ds (buf, tot)).2 + buf.length = (pushSamples m ds (buf, tot)).1.length + tot := by
  intro ds
  induction ds with
  | nil => intro buf tot; simp [pushSamples, Nat.add_comm]
  | cons s rest ih =>
    intro buf tot
    by_cases h : m ≤ tot
    · simp [pushSamples, h, Nat.add_comm]
    · have := ih (buf ++ [s]) (tot + 1)
      simp only [pushSamples, if_neg h]
      simp only [List.length_append, List.length_singleton] at this
      omega

theorem pushSamples_snd_le {α : Type} (m : ℕ) :
    ∀ (ds buf : List α) (tot : ℕ), tot ≤ m → (pushSamples m ds (buf, tot)).2 ≤ m := by
  intro ds
  induction ds with
  | nil => intro buf tot h; simpa [pushSamples] using h
  | cons s rest ih =>
    intro buf tot h
    by_cases hm : m ≤ tot
    · simpa [pushSamples, hm] using h
    · simp only [pushSamples, if_neg hm]
      exact ih (buf ++ [s]) (tot + 1) (by omega)

theorem pushSamples_stop {α : Type} (m : ℕ) (ds buf : List α) (tot : ℕ) (h : m ≤ tot) :
    pushSamples m ds (buf, tot) = (buf, tot) := by
  cases ds with
  | nil => rfl
  | cons s rest => simp [pushSamples, h]

theorem totalAfter_le {α : Type} (m : ℕ) (env : CaptureEnv α) :
    ∀ i, totalAfter m env i ≤ m := by
  intro i
  induction i with
  | zero => simp [totalAfter]
  | succ i ih => exact pushSamples_snd_le m (env.delivered i) [] (totalAfter m env i) ih

theorem windowBuf_length {α : Type} (m : ℕ) (env : CaptureEnv α) (i : ℕ) :
    (windowBuf m env i).length + totalAfter m env i = totalAfter m env (i + 1) := by
  have := pushSamples_snd_add m (env.delivered i) [] (totalAfter m env i)
  simp only [List.length_nil, Nat.add_zero] at this
  simp [windowBuf, totalAfter, this]

theorem windowBuf_length_le {α : Type} (m : ℕ) (env : CaptureEnv α) (i : ℕ) :
    (windowBuf m env i).length ≤ m := by
  have h1 := windowBuf_length m env i
  have h2 := totalAfter_le m env (i + 1)
  omega

theorem sum_windowBuf_length {α : Type} (m : ℕ) (env : CaptureEnv α) :
    ∀ k, ((List.range k).map (fun j => (windowBuf m env j).length)).sum = totalAfter m env k := by
  intro k
  induction k with
  | zero => simp [totalAfter]
  | succ k ih =>
    rw [List.range_succ, List.map_append, List.sum_append]
    have := windowBuf_length m env k
    simp only [List.map_cons, List.map_nil, List.sum_cons, List.sum_nil]
    omega

theorem windowBuf_of_cap_reached {α : Type} (m : ℕ) (env : CaptureEnv α) (i : ℕ)
    (h : m ≤ totalAfter m env i) : windowBuf m env i = [] := by
  simp [windowBuf, pushSamples_stop m (env.delivered i) [] (totalAfter m env i) h]

/-- A successful run of the per-note loop appends exactly one buffer per
note, and the buffer appended for the `j`-th remaining note is the
capture of window `i + j`. -/
theorem captureLoop_ok_eq {α : Type} (m : ℕ) (env : CaptureEnv α) :
    ∀ (notes : List ℕ) (i : ℕ) (acc l : List (List α)),
      captureLoop m env notes i (totalAfter m env i) none acc = .ok l →
      l = acc ++ (List.range notes.length).map (fun j => windowBuf m env (i + j)) := by
  intro notes
  induction notes with
  | nil =>
    intro i acc l h
    simp only [captureLoop, Outcome.ok.injEq] at h
    simp [h]
  | cons note rest ih =>
    intro i acc l h
    simp only [captureLoop] at h
    cases hso : env.sendOnRes i with
    | some e => rw [hso] at h; simp at h
    | none =>
    rw [hso] at h
    cases hp : env.playRes i with
    | some e => rw [hp] at h; simp at h
    | none =>
    rw [hp] at h
    cases hsf : env.sendOffRes i with
    | some e => rw [hsf] at h; simp at h
    | none =>
    rw [hsf] at h
    cases hpa : env.pauseRes i with
    | some e => rw [hpa] at h; simp at h
    | none =>
    rw [hpa] at h
    cases hsl : (env.errs i).foldl error_callback none with
    | some e => rw [hsl] at h; simp at h
    | none =>
    rw [hsl] at h
    simp only at h
    have hrec :
        captureLoop m env rest (i + 1) (totalAfter m env (i + 1)) none
          (acc ++ [windowBuf m env i]) = .ok l := h
    have := ih (i + 1) (acc ++ [windowBuf m env i]) l hrec
    rw [this]
    simp only [List.length_cons, List.range_succ_eq_map, List.map_cons, List.map_map,
      List.append_assoc, List.singleton_append, Nat.add_zero]
    congr 2
    have hfg : (fun j => windowBuf m env (i + 1 + j)) =
        ((fun j => windowBuf m env (i + j)) ∘ Nat.succ) := by
      funext j
      simp only [Function.comp_apply]
      congr 1
      omega
    rw [hfg]

/-- Shape of any successful `capture_note_list` run: the result is the
list of per-window captures, one per note. -/
theorem capture_note_list_shape {α : Type} (s : NoteCaptureSettings) (env : CaptureEnv α)
    (notes : List ℕ) (l : List (List α)) (h : capture_note_list s env notes = .ok l) :
    l = (List.range notes.length).map (fun j => windowBuf (num_samples s) env j) := by
  simp only [capture_note_list] at h
  cases hb : env.buildResult with
  | some e => rw [hb] at h; simp at h
  | none =>
    rw [hb] at h
    simp only at h
    have h0 : captureLoop (num_samples s) env notes 0
        (totalAfter (num_samples s) env 0) none [] = .ok l := h
    have := captureLoop_ok_eq (num_samples s) env notes 0 [] l h0
    simpa [Nat.zero_add] using this

/-! ## Claim theorems -/

/-- **C1**: for every note list, a successful `capture_note_list` call
(and hence a successful `capture_notes` call, which forwards its derived
note list to `capture_note_list`) returns exactly one `NoteSample` per
input note, in the same order as the input notes: the result has the
same length as the note list and its `j`-th entry is exactly the capture
of the `j`-th note window, with no partial entries. -/
theorem capture_note_list_one_sample_per_note {α : Type} (s : NoteCaptureSettings)
    (env : CaptureEnv α) (notes : List ℕ) (l : List (List α))
    (h : capture_note_list s env notes = .ok l) :
    l.length = notes.length ∧
    l = (List.range notes.length).map (fun j => windowBuf (num_samples s) env j) := by
  have hs := capture_note_list_shape s env notes l h
  exact ⟨by rw [hs]; simp, hs⟩

/-- Witness for `capture_note_list_one_sample_per_note`: the tiny
settings (cap 1) on the always-succeeding device `envW` capture the two
notes `[60, 61]` as `[[5], []]`. -/
theorem capture_note_list_one_sample_per_note_witness :
    ([[5], []] : List (List ℕ)).length = ([60, 61] : List ℕ).length ∧
    ([[5], []] : List (List ℕ)) =
      (List.range ([60, 61] : List ℕ).length).map (fun j => windowBuf (num_samples tinyS) envW j) :=
  capture_note_list_one_sample_per_note tinyS envW [60, 61] [[5], []] (by decide)

/-- **C2** (code bug): with the default settings and a device that
succeeds at every operation but reports stream error `5` during note
window 2 of the 5-note batch `[60, 61, 62, 63, 64]`, `capture_note_list`
does not return `CaptureError::Stream` as the spec states: the error
check reaches `Arc::try_unwrap(error)` while `stream` is still alive and
holds the second clone of the `Arc` (inside the registered error
callback), so `try_unwrap` fails and
`.expect("should be no lock")` panics. -/
theorem capture_note_list_stream_error_panics :
    capture_note_list NoteCaptureSettings.default envErr2 [60, 61, 62, 63, 64] =
      .panicked .arcUnwrap := by
  decide

/-- **C4**: no entry of a successful `capture_note_list` result is
longer than the cap `num_samples()`, for every device behaviour —
including devices that deliver more samples than the cap (the data
callback stops appending at the cap without raising an error). -/
theorem capture_note_list_cap_enforced {α : Type} (s : NoteCaptureSettings)
    (env : CaptureEnv α) (notes : List ℕ) (l : List (List α))
    (h : capture_note_list s env notes = .ok l) :
    ∀ b ∈ l, b.length ≤ num_samples s := by
  intro b hb
  rw [capture_note_list_shape s env notes l h] at hb
  obtain ⟨j, _, rfl⟩ := List.mem_map.1 hb
  exact windowBuf_length_le (num_samples s) env j

/-- Witness for `capture_note_list_cap_enforced`: with the tiny settings
the cap is 1, the device delivers 2 samples per window, and the first
returned buffer `[5]` has length `1 ≤ num_samples tinyS`. -/
theorem capture_note_list_cap_enforced_witness :
    ([5] : List ℕ).length ≤ num_samples tinyS :=
  capture_note_list_cap_enforced tinyS envW [60, 61] [[5], []] (by decide) [5] (by decide)

/-- **C9**: the data callback's counter `total_num_samples` is cumulative
over the whole run (never reset by the per-note buffer clear), so on any
successful `capture_note_list` call the total length of all returned
`NoteSample`s is at most `num_samples()`, and any entry whose preceding
entries already total the cap is empty. -/
theorem capture_note_list_cumulative_cap {α : Type} (s : NoteCaptureSettings)
    (env : CaptureEnv α) (notes : List ℕ) (l : List (List α))
    (h : capture_note_list s env notes = .ok l) :
    (l.map List.length).sum ≤ num_samples s ∧
    ∀ j, (hj : j < l.length) → num_samples s ≤ ((l.take j).map List.length).sum →
      l.get ⟨j, hj⟩ = [] := by
  have hs := capture_note_list_shape s env notes l h
  subst hs
  constructor
  · rw [List.map_map]
    have hsum : ((List.range notes.length).map
        (List.length ∘ fun j => windowBuf (num_samples s) env j)).sum =
        totalAfter (num_samples s) env notes.length :=
      sum_windowBuf_length (num_samples s) env notes.length
    rw [hsum]
    exact totalAfter_le (num_samples s) env notes.length
  · intro j hj hcap
    have hjk : j < notes.length := by simpa using hj
    have htake : (((List.range notes.length).map
        (fun j => windowBuf (num_samples s) env j)).take j).map List.length =
        (List.range j).map (fun j => (windowBuf (num_samples s) env j).length) := by
      rw [← List.map_take, List.take_range, Nat.min_eq_left hjk.le, List.map_map]
      rfl
    rw [htake, sum_windowBuf_length (num_samples s) env j] at hcap
    have hempty := windowBuf_of_cap_reached (num_samples s) env j hcap
    simp only [List.get_eq_getElem, List.getElem_map, List.getElem_range]
    exact hempty

/-- Witness for `capture_note_list_cumulative_cap`: in the run captured
by `envW` with cap 1, the total returned length is at most the cap and
the second entry (preceded by a full cap) is empty. -/
theorem capture_note_list_cumulative_cap_witness :
    (([[5], []] : List (List ℕ)).map List.length).sum ≤ num_samples tinyS ∧
    ([[5], []] : List (List ℕ)).get ⟨1, by decide⟩ = [] := by
  have h := capture_note_list_cumulative_cap tinyS envW [60, 61] [[5], []] (by decide)
  exact ⟨h.1, h.2 1 (by decide) (by decide)⟩

/-- For a nonzero spacing and total index range inside `u8`, the
enumerated stride filter keeps exactly the values at indices divisible
by the spacing. -/
theorem filterNotes_enumerateFrom (sp : ℕ) (hsp : sp ≠ 0) :
    ∀ (n i a : ℕ), i + n ≤ 256 →
      filterNotes sp (enumerateFrom i (rangeFrom n a)) =
        some ((List.range n).filterMap
          (fun k => if (i + k) % sp = 0 then some (a + k) else none)) := by
  intro n
  induction n with
  | zero =>
    intro i a _
    simp [rangeFrom, enumerateFrom, filterNotes]
  | succ n ih =>
    intro i a h
    have hi : i < 256 := by omega
    have hu : u8mod (i % 256) sp = some (i % sp) := by
      simp [u8mod, hsp, Nat.mod_eq_of_lt hi]
    have hrest := ih (i + 1) (a + 1) (by omega)
    have hfun : ((fun k => if (i + k) % sp = 0 then some (a + k) else none) ∘ Nat.succ) =
        (fun k => if ((i + 1) + k) % sp = 0 then some ((a + 1) + k) else none) := by
      funext k
      simp only [Function.comp_apply]
      have e1 : i + Nat.succ k = i + 1 + k := by omega
      have e2 : a + Nat.succ k = a + 1 + k := by omega
      rw [e1, e2]
    simp only [rangeFrom, enumerateFrom, filterNotes, hu, hrest]
    rw [List.range_succ_eq_map, List.filterMap_cons, List.filterMap_map, hfun]
    simp only [Nat.add_zero]
    by_cases hz : i % sp = 0
    · rw [if_pos hz, if_pos hz]
    · rw [if_neg hz, if_neg hz]

/-- **C3**: for `first_note ≤ last_note` (both in `u8` range) and
`note_spacing ≥ 1`, the note sequence derived by `capture_notes` is the
stride filter of `first_note..=last_note` at positions
`0, spacing, 2*spacing, …` with `last_note` appended when the filter
does not already end in it; it is non-empty, ends in `last_note`, and is
the note list `capture_notes` hands to `capture_note_list`. -/
theorem deriveNotes_stride_terminal (s : NoteCaptureSettings)
    (h1 : s.first_note ≤ s.last_note) (h2 : s.last_note ≤ 255) (h3 : 1 ≤ s.note_spacing) :
    deriveNotes s = some (strideWithTerminal s.first_note s.last_note s.note_spacing) ∧
    strideWithTerminal s.first_note s.last_note s.note_spacing ≠ [] ∧
    (strideWithTerminal s.first_note s.last_note s.note_spacing).getLast? = some s.last_note ∧
    ∀ (α : Type) (env : CaptureEnv α),
      capture_notes s env =
        capture_note_list s env (strideWithTerminal s.first_note s.last_note s.note_spacing) := by
  have hsp : s.note_spacing ≠ 0 := by omega
  have hS : filterNotes s.note_spacing
      (enumerateFrom 0 (rangeIncl s.first_note s.last_note)) =
      some (strideNotes s.first_note s.last_note s.note_spacing) := by
    rw [rangeIncl,
      filterNotes_enumerateFrom s.note_spacing hsp (s.last_note + 1 - s.first_note) 0
        s.first_note (by omega)]
    have hlam : (fun k => if (0 + k) % s.note_spacing = 0
          then some (s.first_note + k) else none) =
        (fun k => if k % s.note_spacing = 0 then some (s.first_note + k) else none) := by
      funext k
      rw [Nat.zero_add]
    rw [hlam]
    rfl
  have hmem : s.first_note ∈ strideNotes s.first_note s.last_note s.note_spacing := by
    apply List.mem_filterMap.2
    exact ⟨0, List.mem_range.2 (by omega), by simp⟩
  have hne : strideNotes s.first_note s.last_note s.note_spacing ≠ [] := by
    intro hnil
    rw [hnil] at hmem
    exact List.not_mem_nil s.first_note hmem
  obtain ⟨x, hx⟩ : ∃ x,
      (strideNotes s.first_note s.last_note s.note_spacing).getLast? = some x := by
    cases hgl : (strideNotes s.first_note s.last_note s.note_spacing).getLast? with
    | none => exact absurd (List.getLast?_eq_none_iff.1 hgl) hne
    | some x => exact ⟨x, rfl⟩
  have hmain : deriveNotes s = some (strideWithTerminal s.first_note s.last_note s.note_spacing) ∧
      strideWithTerminal s.first_note s.last_note s.note_spacing ≠ [] ∧
      (strideWithTerminal s.first_note s.last_note s.note_spacing).getLast? =
        some s.last_note := by
    by_cases hxl : x = s.last_note
    · have hcond : (strideNotes s.first_note s.last_note s.note_spacing).getLast? =
          some s.last_note := by rw [hx, hxl]
      have hsw : strideWithTerminal s.first_note s.last_note s.note_spacing =
          strideNotes s.first_note s.last_note s.note_spacing := by
        rw [strideWithTerminal, if_pos hcond]
      refine ⟨?_, by rw [hsw]; exact hne, by rw [hsw]; exact hcond⟩
      simp [deriveNotes, hS, hsw, hx, hxl]
    · have hcond : ¬ (strideNotes s.first_note s.last_note s.note_spacing).getLast? =
          some s.last_note := by
        rw [hx]
        intro hc
        exact hxl (Option.some.inj hc)
      have hsw : strideWithTerminal s.first_note s.last_note s.note_spacing =
          strideNotes s.first_note s.last_note s.note_spacing ++ [s.last_note] := by
        rw [strideWithTerminal, if_neg hcond]
      refine ⟨?_, by rw [hsw]; simp, by rw [hsw]; exact List.getLast?_concat _⟩
      simp only [deriveNotes, hS, hsw, hx]
      rw [if_neg hxl]
  refine ⟨hmain.1, hmain.2.1, hmain.2.2, ?_⟩
  intro α env
  simp only [capture_notes, hmain.1]

/-- Witness for `deriveNotes_stride_terminal`: the spec's scenario
`first_note = 21, last_note = 108, note_spacing = 12` derives
`[21, 33, 45, 57, 69, 81, 93, 105, 108]` (108 appended since
`21 + 12*7 = 105 ≠ 108`), non-empty with last element 108. -/
theorem deriveNotes_stride_terminal_witness :
    deriveNotes s12 = some [21, 33, 45, 57, 69, 81, 93, 105, 108] ∧
    ([21, 33, 45, 57, 69, 81, 93, 105, 108] : List ℕ) ≠ [] ∧
    ([21, 33, 45, 57, 69, 81, 93, 105, 108] : List ℕ).getLast? = some 108 := by
  have h := deriveNotes_stride_terminal s12 (by decide) (by decide) (by decide)
  have hw : strideWithTerminal s12.first_note s12.last_note s12.note_spacing =
      [21, 33, 45, 57, 69, 81, 93, 105, 108] := by decide
  exact ⟨by rw [h.1, hw], by decide, by decide⟩

/-- **C7 counterexample**: with `first_note = 100 > last_note = 20` and a
device whose stream build fails with error `3`, `capture_notes` performs
the stream build (device interaction) and returns its failure — not the
successful empty result the claim asserts for every such settings
value. -/
theorem capture_notes_empty_range_counterexample :
    capture_notes sEmptyRange envBuildFail = .err (.BuildStream 3) ∧
    capture_notes sEmptyRange envBuildFail ≠ .ok [] := by
  decide

/-- **C7 amended**: if `first_note > last_note` the derived note
sequence is empty, and whenever the stream build succeeds,
`capture_notes` returns `Ok([])` for every behaviour of the remaining
device operations (so nothing is played, paused, or sent) — but the
input stream is still built. -/
theorem capture_notes_empty_range_ok {α : Type} (s : NoteCaptureSettings)
    (env : CaptureEnv α) (h : s.last_note < s.first_note)
    (hb : env.buildResult = none) :
    deriveNotes s = some [] ∧ capture_notes s env = .ok [] := by
  have hn : s.last_note + 1 - s.first_note = 0 := by omega
  have hr : rangeIncl s.first_note s.last_note = [] := by
    rw [rangeIncl, hn]
    rfl
  have hd : deriveNotes s = some [] := by
    simp [deriveNotes, hr, enumerateFrom, filterNotes]
  refine ⟨hd, ?_⟩
  simp only [capture_notes, hd, capture_note_list, hb]
  rfl

/-- Witness for `capture_notes_empty_range_ok` at
`first_note = 100, last_note = 20` on the always-succeeding device. -/
theorem capture_notes_empty_range_ok_witness :
    deriveNotes sEmptyRange = some [] ∧ capture_notes sEmptyRange envW = .ok [] :=
  capture_notes_empty_range_ok sEmptyRange envW (by decide) (by decide)

/-- **C10**: `verify` does not inspect `note_spacing`, so settings with
`note_spacing = 0` (and a valid channel count) pass validation and are
applied by `apply_config`; for any such settings with a non-empty note
range, the stride filter of `capture_notes` evaluates `i as u8 % 0` and
panics (remainder by zero) instead of returning a `Result`. -/
theorem verify_accepts_zero_note_spacing (c : NoteCapturer) (s : NoteCaptureSettings)
    (hch : s.channels = 1 ∨ s.channels = 2) (hsp : s.note_spacing = 0)
    (hfl : s.first_note ≤ s.last_note) {α : Type} (env : CaptureEnv α) :
    verify s = true ∧ (apply_config c s).1.settings = s ∧ deriveNotes s = none ∧
    capture_notes s env = .panicked .divByZero := by
  have hv : verify s = true := by
    rcases hch with h | h <;> simp [verify, h]
  have hd : deriveNotes s = none := by
    obtain ⟨k, hk⟩ : ∃ k, s.last_note + 1 - s.first_note = k + 1 :=
      ⟨s.last_note - s.first_note, by omega⟩
    simp [deriveNotes, rangeIncl, hk, rangeFrom, enumerateFrom, filterNotes, u8mod, hsp]
  refine ⟨hv, by simp [apply_config, hv], hd, ?_⟩
  simp only [capture_notes, hd]

/-- Witness for `verify_accepts_zero_note_spacing`: the default settings
with `note_spacing := 0` are accepted by `verify`/`apply_config` and
make `capture_notes` panic. -/
theorem verify_accepts_zero_note_spacing_witness :
    verify sSpacing0 = true ∧
    (apply_config (NoteCapturer.new 0) sSpacing0).1.settings = sSpacing0 ∧
    deriveNotes sSpacing0 = none ∧
    capture_notes sSpacing0 envW = .panicked .divByZero :=
  verify_accepts_zero_note_spacing (NoteCapturer.new 0) sSpacing0
    (Or.inl (by decide)) (by decide) (by decide) envW

/-- The default settings with the given channel count. -/
def sCh (c : ℕ) : NoteCaptureSettings :=
  { NoteCaptureSettings.default with channels := c }

/-- **C5 counterexample**: `apply_config` returns no boolean.  The call
rejecting `channel_count = 0` and the call accepting `channel_count = 2`
return identical (unit) values even though only the second replaces the
settings, so the return value of `apply_config` cannot report
acceptance, contradicting the claimed `apply_config(settings) -> bool`
contract at these inputs. -/
theorem apply_config_returns_no_bool :
    (apply_config (NoteCapturer.new 0) (sCh 0)).2 =
      (apply_config (NoteCapturer.new 0) (sCh 2)).2 ∧
    (apply_config (NoteCapturer.new 0) (sCh 0)).1.settings ≠
      (apply_config (NoteCapturer.new 0) (sCh 2)).1.settings := by
  decide

/-- **C5 amended**: `apply_config` returns no value (silent rejection).
Candidates with `channel_count = 0` or `3` are rejected and leave the
previously active (default) settings unchanged; a candidate with
`channel_count = 2` applied after the default is accepted and replaces
the settings, and subsequent sizing (`num_samples`: 4409 instead of the
mono 2204) and stream configuration (`channels = 2`) reflect stereo. -/
theorem apply_config_silent_rejection :
    (apply_config (NoteCapturer.new 0) (sCh 0)).1 = NoteCapturer.new 0 ∧
    (apply_config (NoteCapturer.new 0) (sCh 3)).1 = NoteCapturer.new 0 ∧
    (apply_config (NoteCapturer.new 0) (sCh 2)).1.settings = sCh 2 ∧
    (in_config (apply_config (NoteCapturer.new 0) (sCh 2)).1.settings).channels = 2 ∧
    num_samples (apply_config (NoteCapturer.new 0) (sCh 2)).1.settings = 4409 ∧
    num_samples (NoteCapturer.new 0).settings = 2204 := by
  decide

/-- **C6 counterexample**: for the spec's scenario (the default
settings: 20 ms on, 20 ms release, 44100 Hz, mono) `num_samples()` does
not return `round(44100 * 1 * 0.05) = 2205`: the `f32` sum
`0.02 + 0.02 + 0.01` is `0.049999997…` and the product is truncated by
`as usize`, not rounded. -/
theorem num_samples_scenario_counterexample :
    num_samples NoteCaptureSettings.default ≠ 2205 := by
  decide

/-- **C6 amended**: `num_samples()` truncates the `f32` product
`(sample_rate * channels) * (time_on + time_release + 0.01)` toward
zero; for the scenario it returns 2204, one less than the value 2205 of
the spec's idealised exact-arithmetic rounding formula. -/
theorem num_samples_scenario_truncated :
    num_samples NoteCaptureSettings.default = 2204 ∧
    num_samples_spec NoteCaptureSettings.default = 2205 := by
  decide

/-- **C8 counterexample**: delivering stream errors `1` then `2` to the
error callback within one run leaves `some 2` in the slot: the second
delivery overwrites the first, so the cell is not one-shot /
overwrite-protected and the first error does not win. -/
theorem error_callback_second_error_wins :
    List.foldl error_callback none [1, 2] = some 2 ∧
    List.foldl error_callback none [1, 2] ≠ some 1 := by
  decide

/-- **C8 amended**: every invocation of the error callback
unconditionally overwrites the slot (`*e2.lock().unwrap() = Some(e)`),
so after any sequence of deliveries the slot holds exactly the most
recent error — last wins, not first. -/
theorem error_callback_overwrites (slot : Option ℕ) (es : List ℕ) (e : ℕ) :
    error_callback slot e = some e ∧
    List.foldl error_callback slot (es ++ [e]) = some e :=
  ⟨rfl, by rw [List.foldl_append]; rfl⟩

end AudioMultisample
